import Mathlib

/-!
Verification of the DeesseJS context/config/database layer.

Shallow embedding of:
* the JavaScript-object operations used by the code (spread merge,
  property read, `Object.freeze`);
* the provider-registry context construction (`getContext` in the
  context design document);
* the `ContextBuilder` (`context()` / `use` / `build` / `reset` in
  `packages/deesse/src/context/builder.ts` as given in the design doc);
* `generateDatabase` (`packages/deesse/src/database/generate.ts`);
* `query` / `mutation` (`packages/deesse/src/database/functions.ts`);
* the config registry (`defineConfig` / `getConfig`).
-/

/-! ## JavaScript object model

A plain object is modelled as an association list from string keys to
values, in property-insertion order.  JavaScript objects never hold the
same key twice, so property assignment replaces the (unique) matching
entry in place, or appends a new entry.
-/

/-- A plain JavaScript object: string-keyed entries in insertion order. -/
abbrev Obj (α : Type) := List (String × α)

/-- Property read `o[k]`: `some v` when the key is present. -/
def getKey (o : Obj α) (k : String) : Option α :=
  (o.find? (fun p => p.1 == k)).map (·.2)

/-- Key-presence test `k in o`. -/
def hasKey (o : Obj α) (k : String) : Bool :=
  o.any (fun p => p.1 == k)

/-- Property write `o[k] = v`: replaces the entry for `k` in place when
the key exists, otherwise appends the entry at the end (JavaScript
assignment semantics on objects, whose keys are unique). -/
def setKey : Obj α → String → α → Obj α
  | [], k, v => [(k, v)]
  | p :: ps, k, v => if p.1 == k then (k, v) :: ps else p :: setKey ps k v

/-- Spread merge `\x7b...a, ...b\x7d`: a copy of `a` with every property of
`b` assigned onto it in `b`'s order. -/
def mergeObj (a : Obj α) : Obj α → Obj α
  | [] => a
  | p :: ps => mergeObj (setKey a p.1 p.2) ps

/-- The value of `o`'s last entry with key `k` (the entry whose value
survives when `o` is spread onto another object). -/
def lastEntry : Obj α → String → Option α
  | [], _ => none
  | p :: ps, k =>
    match lastEntry ps k with
    | some v => some v
    | none => if p.1 == k then some p.2 else none

/-- A runtime object together with its frozen flag (`Object.freeze`). -/
structure JSObj (α : Type) where
  entries : Obj α
  frozen : Bool
deriving DecidableEq

/-- Model of `Object.freeze(o)`: the same entries, now frozen. -/
def freeze (o : Obj α) : JSObj α := ⟨o, true⟩

/-- Attempted property assignment on a runtime object: a no-op on a
frozen object (strict mode raises `TypeError` and leaves the object
unchanged), a property write otherwise. -/
def objSet (o : JSObj α) (k : String) (v : α) : JSObj α :=
  if o.frozen then o else { o with entries := setKey o.entries k v }

/-- Attempted property deletion on a runtime object: a no-op on a frozen
object, removal of the entry otherwise. -/
def objDelete (o : JSObj α) (k : String) : JSObj α :=
  if o.frozen then o
  else { o with entries := o.entries.filter (fun p => !(p.1 == k)) }

/-! ## Provider-registry context construction

Embedding of the minimal implementation in the context design document
(`context.ts`):

```
const registry: ContextProvider[] = [];
export const addContext = (provider) => { registry.push(provider); };
export const getContext = async () => {
  let ctx: any = {};
  for (const provider of registry) {
    const partial = await provider(ctx);
    ctx = { ...ctx, ...partial };
  }
  return Object.freeze(ctx);
};
export const resetContext = () => { registry.length = 0; };
```

The module-level `registry` is passed explicitly; a provider receives
the context accumulated so far and either returns a fragment or throws
(`Except.error`).
-/

/-- A context provider: receives the context built so far, returns a
fragment to merge, or throws. -/
abbrev Provider (α : Type) := Obj α → Except String (Obj α)

/-- Model of `addContext`: pushes a provider onto the registry. -/
def addContext (registry : List (Provider α)) (p : Provider α) :
    List (Provider α) :=
  registry ++ [p]

/-- Model of `resetContext`: empties the registry. -/
def resetContext (_registry : List (Provider α)) : List (Provider α) := []

/-- The loop body of `getContext`: starting from `ctx`, run each
provider on the context so far and spread-merge its fragment; a thrown
error propagates. -/
def buildCtx (ctx : Obj α) : List (Provider α) → Except String (Obj α)
  | [] => .ok ctx
  | p :: ps =>
    match p ctx with
    | .error e => .error e
    | .ok frag => buildCtx (mergeObj ctx frag) ps

/-- Model of `getContext`: run the registry starting from `\x7b\x7d` and freeze the
result. -/
def getContext (registry : List (Provider α)) : Except String (JSObj α) :=
  (buildCtx [] registry).map freeze

/-- The fragments the providers return during a successful run of the
`getContext` loop started at `ctx` (`none` when some provider throws). -/
def runFragmentsFrom (ctx : Obj α) :
    List (Provider α) → Option (List (Obj α))
  | [] => some []
  | p :: ps =>
    match p ctx with
    | .error _ => none
    | .ok frag => (runFragmentsFrom (mergeObj ctx frag) ps).map (frag :: ·)

/-- The value a key ends up with after a list of fragments is merged in
order: the last entry of the last fragment that mentions the key. -/
def lastProvided : List (Obj α) → String → Option α
  | [], _ => none
  | f :: fs, k =>
    match lastProvided fs k with
    | some v => some v
    | none => lastEntry f k

/-! ## ContextBuilder

Embedding of `packages/deesse/src/context/builder.ts` from the design
document:

```
export function context(): ContextBuilder {
  let context: Context = {};
  const usedPlugins: ContextPlugin[] = [];
  return {
    use(plugin, options?) {
      usedPlugins.push(plugin);
      const setup = plugin.setup(options || {});
      if (setup.context) { context = { ...context, ...setup.context }; }
      return this;
    },
    build() { return { ...context }; },
    reset() { context = {}; usedPlugins.length = 0; return this; }
  };
}
```

The closure state (`context`, `usedPlugins`) is passed explicitly.  A
plugin's `setup` receives the options object and returns a setup result
whose `context` field may be absent, or throws.
-/

/-- The result of `plugin.setup`: an optional context fragment. -/
structure SetupResult (α : Type) where
  context : Option (Obj α)

/-- A context plugin: `setup` receives the options object and returns a
setup result, or throws. -/
structure ContextPlugin (α : Type) where
  setup : Obj α → Except String (SetupResult α)

/-- The closure state of one builder: the accumulated context and the
list of plugins passed to `use`. -/
structure BuilderSt (α : Type) where
  context : Obj α
  usedPlugins : List (ContextPlugin α)

/-- Model of `context()`: a fresh builder. -/
def mkBuilder : BuilderSt α := ⟨[], []⟩

/-- Model of `use(plugin, options?)`: records the plugin, runs `setup` on the
options (`\x7b\x7d` when absent), and merges the returned fragment when
present.  If `setup` throws, the push has already happened, no fragment
is merged, and the error is reported alongside the new state. -/
def use (st : BuilderSt α) (plugin : ContextPlugin α)
    (options : Option (Obj α)) : BuilderSt α × Option String :=
  let st1 := { st with usedPlugins := st.usedPlugins ++ [plugin] }
  match plugin.setup (options.getD []) with
  | .error e => (st1, some e)
  | .ok setup =>
    match setup.context with
    | some frag => ({ st1 with context := mergeObj st1.context frag }, none)
    | none => (st1, none)

/-- Model of `build()`: a fresh (unfrozen) shallow copy of the accumulated
context. -/
def build (st : BuilderSt α) : JSObj α := ⟨st.context, false⟩

/-- Model of `reset()`: clears the accumulated context and the plugin list. -/
def reset (_st : BuilderSt α) : BuilderSt α := ⟨[], []⟩

/-- A client-side sequence of `use` calls: runs them left to right and
stops at the first thrown error (the exception propagates to the
caller, so the later calls never run). -/
def useSeq (st : BuilderSt α) :
    List (ContextPlugin α × Option (Obj α)) → BuilderSt α × Option String
  | [] => (st, none)
  | c :: cs =>
    match use st c.1 c.2 with
    | (st1, none) => useSeq st1 cs
    | (st1, some e) => (st1, some e)

/-- The fragment a `use` call merges, as determined by the plugin and
its options alone: the `context` field of `setup(options || \x7b\x7d)`, and
`\x7b\x7d` when that field is absent. -/
def useFragment (plugin : ContextPlugin α) (options : Option (Obj α)) :
    Obj α :=
  match plugin.setup (options.getD []) with
  | .error _ => []
  | .ok setup => setup.context.getD []

/-- A `use` call whose `setup` does not throw. -/
def callOk (c : ContextPlugin α × Option (Obj α)) : Prop :=
  (c.1.setup (c.2.getD [])).isOk

instance (c : ContextPlugin α × Option (Obj α)) : Decidable (callOk c) := by
  unfold callOk; infer_instance

/-- Merge a list of fragments onto `acc`, left to right. -/
def mergeAllFrom (acc : Obj α) : List (Obj α) → Obj α
  | [] => acc
  | f :: fs => mergeAllFrom (mergeObj acc f) fs

/-- The fragments a sequence of `use` calls merges, one per call. -/
def callFragments (calls : List (ContextPlugin α × Option (Obj α))) :
    List (Obj α) :=
  calls.map (fun c => useFragment c.1 c.2)

/-! ## Collections and `generateDatabase`

Embedding of `packages/deesse/src/collections/types.ts` and
`packages/deesse/src/database/generate.ts`:

```
export const generateDatabase = (collections) => {
  const database: any = [];
  collections.forEach((collection) => {
    database[collection.slug] = collection;
  });
  return database as DatabaseFromCollections<TCollections>;
};
```

The `database` value is an array used as a string-keyed object; the
named properties assigned onto it are modelled as an `Obj`.
-/

namespace Deesse

/-- Per-field permission lists (`collections/types.ts`). -/
structure FieldPermissions where
  create : List String
  read : List String
  update : List String
  delete : List String
deriving DecidableEq

/-- A collection field (`collections/types.ts`): its `type` is declared
as `undefined`, modelled as `Unit`. -/
structure Field where
  type : Unit
  permissions : FieldPermissions
deriving DecidableEq

/-- A collection definition (`collections/types.ts`). -/
structure Collection where
  name : String
  slug : String
  fields : Obj (List Field)
deriving DecidableEq

end Deesse

open Deesse (Collection)

/-- The property names a `Collection` object carries at runtime. -/
def collectionPropNames : List String := ["name", "slug", "fields"]

/-- The method names `CollectionMethods` declares
(`database/types.ts`): the value the generated database associates to
each slug is typed as an object with exactly these keys. -/
def collectionMethodNames : List String :=
  ["create", "update", "delete", "find"]

/-- Model of `generateDatabase`: assigns each collection onto the database value
under its slug. -/
def generateDatabase (collections : List Collection) : Obj Collection :=
  collections.foldl (fun database c => setKey database c.slug c) []

/-! ## `query` and `mutation`

Embedding of `packages/deesse/src/database/functions.ts`:

```
export const query = (config) => {
  return async (args?) => {
    const ctx: Context<TCollections> = { db: generateDatabase([]) };
    if (config.args) config.args.parse(args ?? {})
    return config.handler(ctx, args ?? ({} as any))
  }
}
export const mutation = (config) => {
  return async (args?) => {
    const ctx: Context<TCollections> = { db: undefined };
    if (config.args) config.args.parse(args ?? {})
    return config.handler(ctx, args ?? ({} as any))
  }
}
```

Argument values are modelled as objects with values in `Nat`; a zod
schema is its `parse` function, which returns the validated (possibly
transformed) value or throws.  An async function's thrown error is the
rejection of the promise it returns; both are `Except.error` here.
-/

/-- Argument values handled by a schema. -/
abbrev ArgVal := Obj Nat

/-- A zod schema, as its `parse` function: validated value or thrown
validation error. -/
structure ZodSchema where
  parse : ArgVal → Except String ArgVal

/-- The handler context (`database/context.ts`, imported by
`database/functions.ts`): a `db` property that `query` sets to a
generated database and `mutation` sets to `undefined`. -/
structure Ctx where
  db : Option (Obj Collection)

/-- The configuration object passed to `query` / `mutation`: an optional
args schema and a handler taking the context and the args value. -/
structure FnConfig (T : Type) where
  args : Option ZodSchema
  handler : Ctx → ArgVal → T

/-- One invocation of the function returned by `query cfg`. -/
def runQuery (cfg : FnConfig T) (args : Option ArgVal) : Except String T :=
  let ctx : Ctx := ⟨some (generateDatabase [])⟩
  match cfg.args with
  | some schema =>
    match schema.parse (args.getD []) with
    | .error e => .error e
    | .ok _ => .ok (cfg.handler ctx (args.getD []))
  | none => .ok (cfg.handler ctx (args.getD []))

/-- One invocation of the function returned by `mutation cfg`. -/
def runMutation (cfg : FnConfig T) (args : Option ArgVal) :
    Except String T :=
  let ctx : Ctx := ⟨none⟩
  match cfg.args with
  | some schema =>
    match schema.parse (args.getD []) with
    | .error e => .error e
    | .ok _ => .ok (cfg.handler ctx (args.getD []))
  | none => .ok (cfg.handler ctx (args.getD []))

/-- The invocation validates: no schema, or `parse` succeeds on
`args ?? \x7b\x7d`. -/
def validates (cfg : FnConfig T) (args : Option ArgVal) : Prop :=
  match cfg.args with
  | none => True
  | some schema => (schema.parse (args.getD [])).isOk

instance (cfg : FnConfig T) (args : Option ArgVal) :
    Decidable (validates cfg args) := by
  unfold validates
  cases cfg.args <;> infer_instance

/-! ## Config registry

Embedding of the config module (`defineConfig` / `getConfig`):

```
let _config: Config | null = null;
export const defineConfig = (config: Config): Config => {
  _config = config;
  return config;
};
export const getConfig = (): Config => {
  if (!_config) {
    throw new Error("Config not defined. Call defineConfig() first.");
  }
  return _config;
};
```

The module-level `_config` is passed explicitly as an `Option κ`
(`Config` values are objects, hence truthy, so `!_config` is exactly
the `none` test).  The config type is a parameter `κ`.
-/

/-- Model of `defineConfig`: stores the config and returns it unchanged. -/
def defineConfig (config : κ) (_st : Option κ) : κ × Option κ :=
  (config, some config)

/-- Model of `getConfig`: throws when no config was stored, otherwise returns the
stored config. -/
def getConfig (st : Option κ) : Except String κ :=
  match st with
  | none => .error "Config not defined. Call defineConfig() first."
  | some c => .ok c

/-- The module state after a sequence of `defineConfig` calls. -/
def runDefines (st : Option κ) : List κ → Option κ
  | [] => st
  | c :: cs => runDefines (defineConfig c st).2 cs

/-- A sample registry: the second provider reads the context built by
the first. -/
def regSample : List (Provider Nat) :=
  [fun _ => .ok [("a", 1)], fun c => .ok [("a", 2), ("b", c.length)]]

/-- The context `getContext regSample` constructs. -/
def ctxSample : JSObj Nat := ⟨[("a", 2), ("b", 1)], true⟩

/-- A sample builder call list with a single plugin. -/
def callsSample : List (ContextPlugin Nat × Option (Obj Nat)) :=
  [(⟨fun _ => .ok ⟨some [("x", 5)]⟩⟩, none)]

/-- A provider returning the fragment `\x7ba: 1\x7d`. -/
def provA : Provider Nat := fun _ => .ok [("a", 1)]

/-- A provider that throws. -/
def provBoom : Provider Nat := fun _ => .error "boom"

/-- A provider whose fragment records how many keys the context it
received has. -/
def provProbe : Provider Nat := fun received => .ok [("saw", received.length)]

/-- A plugin whose setup contributes the fragment `\x7ba: 1\x7d`. -/
def pluginA : ContextPlugin Nat := ⟨fun _ => .ok ⟨some [("a", 1)]⟩⟩

/-- A plugin whose setup throws. -/
def pluginBoom : ContextPlugin Nat := ⟨fun _ => .error "boom"⟩

/-- A plugin whose setup records how many keys the object it received
has. -/
def pluginProbe : ContextPlugin Nat :=
  ⟨fun received => .ok ⟨some [("saw", received.length)]⟩⟩

/-- A `use` sequence whose second plugin throws. -/
def failSeq : List (ContextPlugin Nat × Option (Obj Nat)) :=
  [(pluginA, none), (pluginBoom, none)]

/-- A schema that requires key `"n"`: parse fails when it is absent. -/
def schemaReq : ZodSchema :=
  ⟨fun v => if hasKey v "n" then .ok v else .error "required"⟩

/-- A schema that fills in a default: parse returns its input with
`"n"` set to `5` when absent (a transforming parse, as zod `.default`
produces). -/
def schemaDefault : ZodSchema :=
  ⟨fun v => if hasKey v "n" then .ok v else .ok (setKey v "n" 5)⟩

/-! ### Lemmas about the object model -/

theorem getKey_setKey (o : Obj α) (k k' : String) (v : α) :
    getKey (setKey o k v) k' = if k' = k then some v else getKey o k' := by
  induction o with
  | nil =>
    by_cases h : k' = k
    · simp [setKey, getKey, h]
    · have hke : (k == k') = false := by
        simp only [beq_eq_false_iff_ne]; exact fun hh => h hh.symm
      simp [setKey, getKey, hke, h]
  | cons p ps ih =>
    by_cases hpk : p.1 == k
    · simp only [setKey, hpk, if_true]
      by_cases h : k' = k
      · simp [getKey, h]
      · have hke : (k == k') = false := by
          simp only [beq_eq_false_iff_ne]; exact fun hh => h hh.symm
        have hpk' : (p.1 == k') = false := by
          simp only [beq_eq_false_iff_ne]
          simp only [beq_iff_eq] at hpk
          rw [hpk]; exact fun hh => h hh.symm
        simp [getKey, hke, h, hpk']
    · simp only [setKey, hpk, if_false]
      by_cases hpk' : p.1 == k'
      · have h : ¬ (k' = k) := by
          simp only [beq_iff_eq] at hpk'
          simp only [beq_iff_eq] at hpk
          rw [← hpk']; exact fun hh => hpk hh
        simp [getKey, hpk', h]
      · simp only [getKey, List.find?, hpk', cond_false]
        exact ih

theorem hasKey_eq_isSome_getKey (o : Obj α) (k : String) :
    hasKey o k = (getKey o k).isSome := by
  induction o with
  | nil => rfl
  | cons p ps ih =>
    by_cases hpk : p.1 == k
    · simp [hasKey, getKey, List.find?, hpk]
    · simp only [hasKey, List.any_cons, hpk, Bool.false_or, getKey,
        List.find?, cond_false]
      exact ih

theorem getKey_mergeObj (a b : Obj α) (k : String) :
    getKey (mergeObj a b) k =
      match lastEntry b k with
      | some v => some v
      | none => getKey a k := by
  induction b generalizing a with
  | nil => simp [mergeObj, lastEntry]
  | cons p ps ih =>
    simp only [mergeObj, lastEntry]
    rw [ih]
    cases hps : lastEntry ps k with
    | some v => simp
    | none =>
      by_cases hpk : p.1 == k
      · have hk : k = p.1 := by simp only [beq_iff_eq] at hpk; exact hpk.symm
        simp [hpk, getKey_setKey, hk]
      · have hk : ¬ (k = p.1) := by
          simp only [beq_iff_eq] at hpk
          exact fun hh => hpk hh.symm
        simp [hpk, getKey_setKey, hk]

/-! ## Lemmas about context construction -/

theorem lastEntry_isSome (o : Obj α) (k : String) :
    (lastEntry o k).isSome = hasKey o k := by
  induction o with
  | nil => rfl
  | cons p ps ih =>
    have hstep : hasKey (p :: ps) k = ((p.1 == k) || hasKey ps k) :=
      List.any_cons
    rw [hstep, ← ih]
    simp only [lastEntry]
    cases lastEntry ps k with
    | some v => simp
    | none => by_cases hpk : p.1 == k <;> simp [hpk]

theorem lastProvided_isSome (fs : List (Obj α)) (k : String) :
    (lastProvided fs k).isSome = fs.any (fun f => hasKey f k) := by
  induction fs with
  | nil => rfl
  | cons f fs ih =>
    simp only [lastProvided, List.any_cons]
    cases hfs : lastProvided fs k with
    | some v =>
      have : fs.any (fun f => hasKey f k) = true := by rw [← ih, hfs]; rfl
      simp [this]
    | none =>
      have : fs.any (fun f => hasKey f k) = false := by rw [← ih, hfs]; rfl
      simp [this, lastEntry_isSome]

theorem buildCtx_append (l1 l2 : List (Provider α)) :
    ∀ ctx, buildCtx ctx (l1 ++ l2) =
      match buildCtx ctx l1 with
      | .error e => .error e
      | .ok c => buildCtx c l2 := by
  induction l1 with
  | nil => intro ctx; simp [buildCtx]
  | cons p ps ih =>
    intro ctx
    simp only [List.cons_append, buildCtx]
    cases p ctx with
    | error e => rfl
    | ok frag => exact ih (mergeObj ctx frag)

theorem buildCtx_fragments (reg : List (Provider α)) :
    ∀ ctx c, buildCtx ctx reg = .ok c →
    ∃ frags, runFragmentsFrom ctx reg = some frags ∧
      ∀ k, getKey c k =
        match lastProvided frags k with
        | some v => some v
        | none => getKey ctx k := by
  induction reg with
  | nil =>
    intro ctx c hc
    refine ⟨[], rfl, fun k => ?_⟩
    simp only [buildCtx] at hc
    cases hc
    rfl
  | cons p ps ih =>
    intro ctx c hc
    simp only [buildCtx] at hc
    cases hp : p ctx with
    | error e => rw [hp] at hc; cases hc
    | ok frag =>
      rw [hp] at hc
      obtain ⟨frags, hfrags, hval⟩ := ih (mergeObj ctx frag) c hc
      refine ⟨frag :: frags, ?_, fun k => ?_⟩
      · simp [runFragmentsFrom, hp, hfrags]
      · rw [hval k, getKey_mergeObj]
        simp only [lastProvided]
        cases lastProvided frags k with
        | some v => rfl
        | none => rfl

theorem mergeAllFrom_getKey (fs : List (Obj α)) :
    ∀ (acc : Obj α) (k : String),
      getKey (mergeAllFrom acc fs) k =
        match lastProvided fs k with
        | some v => some v
        | none => getKey acc k := by
  induction fs with
  | nil => intro acc k; rfl
  | cons f fs ih =>
    intro acc k
    simp only [mergeAllFrom, lastProvided]
    rw [ih, getKey_mergeObj]
    cases lastProvided fs k with
    | some v => rfl
    | none => rfl

theorem useSeq_ok (calls : List (ContextPlugin α × Option (Obj α))) :
    ∀ st, (∀ c ∈ calls, callOk c) →
      (useSeq st calls).2 = none ∧
      (useSeq st calls).1.context =
        mergeAllFrom st.context (callFragments calls) := by
  induction calls with
  | nil => intro st _; exact ⟨rfl, rfl⟩
  | cons c cs ih =>
    intro st h
    have hc : callOk c := h c (List.mem_cons_self c cs)
    have hcs : ∀ c' ∈ cs, callOk c' := fun c' hc' => h c' (List.mem_cons_of_mem c hc')
    unfold callOk at hc
    cases hsetup : c.1.setup (c.2.getD []) with
    | error e => rw [hsetup] at hc; simp [Except.isOk, Except.toBool] at hc
    | ok s =>
      simp only [useSeq, use, hsetup]
      cases hctx : s.context with
      | some frag =>
        have := ih { st with
            usedPlugins := st.usedPlugins ++ [c.1],
            context := mergeObj st.context frag } hcs
        refine ⟨this.1, ?_⟩
        rw [this.2]
        simp [callFragments, mergeAllFrom, useFragment, hsetup, hctx]
      | none =>
        have := ih { st with usedPlugins := st.usedPlugins ++ [c.1] } hcs
        refine ⟨this.1, ?_⟩
        rw [this.2]
        simp [callFragments, mergeAllFrom, useFragment, hsetup, hctx, mergeObj]

theorem useSeq_append (l1 l2 : List (ContextPlugin α × Option (Obj α))) :
    ∀ st, useSeq st (l1 ++ l2) =
      match useSeq st l1 with
      | (st1, none) => useSeq st1 l2
      | (st1, some e) => (st1, some e) := by
  induction l1 with
  | nil => intro st; rfl
  | cons c cs ih =>
    intro st
    simp only [List.cons_append, useSeq]
    cases use st c.1 c.2 with
    | mk st1 err =>
      cases err with
      | none => exact ih st1
      | some e => rfl

/-! ## Claim theorems -/

/-- C1: for every list of context providers and every registration
order, the context returned by building (`getContext` over the provider
registry, or `ContextBuilder.build` after a sequence of `use` calls)
contains exactly the union of the keys of all fragments the providers
returned, and for every key contributed by more than one provider the
final value is the one from the provider registered last. -/
theorem c1_built_context_union_last_wins
    (registry : List (Provider α)) (o : JSObj α)
    (hreg : getContext registry = .ok o)
    (calls : List (ContextPlugin α × Option (Obj α)))
    (hcalls : ∀ c ∈ calls, callOk c) :
    (∃ frags, runFragmentsFrom [] registry = some frags ∧
      ∀ k, hasKey o.entries k = frags.any (fun f => hasKey f k) ∧
        getKey o.entries k = lastProvided frags k) ∧
    (∀ k,
      hasKey (build (useSeq mkBuilder calls).1).entries k =
        (callFragments calls).any (fun f => hasKey f k) ∧
      getKey (build (useSeq mkBuilder calls).1).entries k =
        lastProvided (callFragments calls) k) := by
  constructor
  · unfold getContext at hreg
    cases hb : buildCtx ([] : Obj α) registry with
    | error e => rw [hb] at hreg; simp [Except.map] at hreg
    | ok c =>
      rw [hb] at hreg
      have ho : freeze c = o := by simpa [Except.map] using hreg
      obtain ⟨frags, hfr, hval⟩ := buildCtx_fragments registry [] c hb
      refine ⟨frags, hfr, fun k => ?_⟩
      have hval' : getKey c k = lastProvided frags k := by
        have hm := hval k
        cases hlp : lastProvided frags k with
        | some v => rw [hlp] at hm; exact hm
        | none => rw [hlp] at hm; exact hm
      have hoe : o.entries = c := by rw [← ho]; rfl
      constructor
      · rw [hoe, hasKey_eq_isSome_getKey, hval', lastProvided_isSome]
      · rw [hoe]; exact hval'
  · intro k
    have h := useSeq_ok calls mkBuilder hcalls
    have hget : getKey (build (useSeq mkBuilder calls).1).entries k
        = lastProvided (callFragments calls) k := by
      show getKey (useSeq mkBuilder calls).1.context k = _
      rw [h.2, mergeAllFrom_getKey]
      cases lastProvided (callFragments calls) k <;> rfl
    constructor
    · rw [hasKey_eq_isSome_getKey, hget, lastProvided_isSome]
    · exact hget

/-- Witness for C1: the concrete registry `regSample` (whose second
provider overrides key `"a"` and reads the accumulated context) and the
concrete call list `callsSample`. -/
theorem c1_witness :
    (getContext regSample = .ok ctxSample ∧
      ∀ c ∈ callsSample, callOk c) ∧
    ((∃ frags, runFragmentsFrom [] regSample = some frags ∧
        ∀ k, hasKey ctxSample.entries k = frags.any (fun f => hasKey f k) ∧
          getKey ctxSample.entries k = lastProvided frags k) ∧
      (∀ k,
        hasKey (build (useSeq mkBuilder callsSample).1).entries k =
          (callFragments callsSample).any (fun f => hasKey f k) ∧
        getKey (build (useSeq mkBuilder callsSample).1).entries k =
          lastProvided (callFragments callsSample) k)) :=
  ⟨⟨rfl, by decide⟩,
   c1_built_context_union_last_wins regSample ctxSample rfl
     callsSample (by decide)⟩

/-- C4 counterexample: in the `ContextBuilder`, after a first `use`
merges the fragment `\x7ba: 1\x7d` and a second `use` throws, a later
`build()` on the same builder still returns the partial context holding
the first plugin's fragment — so a partial context containing the
fragments of earlier providers is exposed, contrary to the claim. -/
theorem c4_counterexample :
    (useSeq mkBuilder failSeq).2 = some "boom" ∧
    build (useSeq mkBuilder failSeq).1 = ⟨[("a", 1)], false⟩ ∧
    hasKey (build (useSeq mkBuilder failSeq).1).entries "a" = true :=
  ⟨rfl, rfl, rfl⟩

/-- C4 amended: a provider throwing makes `getContext` propagate the
error and return no context; in the `ContextBuilder`, a `use` call
whose setup throws propagates the error without merging that plugin's
fragment and later calls do not run, but the fragments of earlier `use`
calls stay in the builder and a later `build()` returns that partial
context. -/
theorem c4_throw_aborts_but_builder_keeps_partial
    (reg1 : List (Provider α)) (p : Provider α)
    (reg2 : List (Provider α)) (c : Obj α) (e : String)
    (h1 : buildCtx [] reg1 = .ok c) (hp : p c = .error e)
    (calls1 : List (ContextPlugin α × Option (Obj α)))
    (q : ContextPlugin α) (opts : Option (Obj α))
    (calls2 : List (ContextPlugin α × Option (Obj α)))
    (hcalls1 : ∀ c' ∈ calls1, callOk c')
    (hq : q.setup (opts.getD []) = .error e) :
    getContext (reg1 ++ p :: reg2) = .error e ∧
    (useSeq mkBuilder (calls1 ++ (q, opts) :: calls2)).2 = some e ∧
    build (useSeq mkBuilder (calls1 ++ (q, opts) :: calls2)).1 =
      build (useSeq mkBuilder calls1).1 := by
  have hseq := useSeq_ok calls1 mkBuilder hcalls1
  have hpair : useSeq mkBuilder calls1 = ((useSeq mkBuilder calls1).1, none) := by
    rw [← hseq.1]
  refine ⟨?_, ?_, ?_⟩
  · unfold getContext
    rw [buildCtx_append, h1]
    show Except.map freeze (buildCtx c (p :: reg2)) = .error e
    simp only [buildCtx, hp]
    rfl
  · rw [useSeq_append, hpair]
    show (useSeq ((useSeq mkBuilder calls1).1) ((q, opts) :: calls2)).2 = some e
    simp only [useSeq, use, hq]
  · rw [useSeq_append, hpair]
    show build (useSeq ((useSeq mkBuilder calls1).1) ((q, opts) :: calls2)).1 =
      build (useSeq mkBuilder calls1).1
    simp only [useSeq, use, hq]
    rfl

/-- Witness for C4's amended theorem at a concrete registry and call
sequence. -/
theorem c4_witness :
    (buildCtx [] [provA] = .ok [("a", 1)] ∧
      provBoom [("a", 1)] = .error "boom" ∧
      (∀ c' ∈ [(pluginA, (none : Option (Obj Nat)))], callOk c') ∧
      pluginBoom.setup ((none : Option (Obj Nat)).getD []) = .error "boom") ∧
    (getContext ([provA] ++ provBoom :: []) = .error "boom" ∧
      (useSeq mkBuilder
        ([(pluginA, none)] ++ (pluginBoom, none) :: [])).2 = some "boom" ∧
      build (useSeq mkBuilder
        ([(pluginA, none)] ++ (pluginBoom, none) :: [])).1 =
        build (useSeq mkBuilder [(pluginA, none)]).1) :=
  ⟨⟨rfl, rfl, by decide, rfl⟩,
   c4_throw_aborts_but_builder_keeps_partial
     [provA] provBoom [] [("a", 1)] "boom" rfl rfl
     [(pluginA, none)] pluginBoom none [] (by decide) rfl⟩

/-- C5 counterexample: in the `ContextBuilder`, after a first `use`
merges `\x7ba: 1\x7d` (so the accumulated partial context has one key), a
probe plugin that reports the number of keys of the object its setup
receives reports `0`: the plugin was invoked with its options object
(`\x7b\x7d` here), not with the accumulated partial context. -/
theorem c5_counterexample :
    (use mkBuilder pluginA none).1.context = [("a", 1)] ∧
    getKey (use (use mkBuilder pluginA none).1 pluginProbe none).1.context
      "saw" = some 0 ∧
    (0 : Nat) ≠ [("a", 1)].length :=
  ⟨rfl, rfl, by decide⟩

/-- C5 amended: providers execute one at a time in registration order
in both mechanisms; in `getContext` each provider is invoked with the
partial context accumulated from the previously executed providers'
fragments, while in the `ContextBuilder` each plugin executes during
its `use` call and its setup is invoked with the supplied options
object (`\x7b\x7d` when absent), never with the partial context. -/
theorem c5_order_and_provider_inputs
    (ctx : Obj α) (reg1 : List (Provider α)) (p : Provider α)
    (reg2 : List (Provider α)) (c : Obj α)
    (h1 : buildCtx ctx reg1 = .ok c)
    (st : BuilderSt α) (q : ContextPlugin α) (opts : Option (Obj α)) :
    buildCtx ctx (reg1 ++ p :: reg2) =
      (match p c with
       | .error e => .error e
       | .ok frag => buildCtx (mergeObj c frag) reg2) ∧
    (use st q opts).1.context =
      (match q.setup (opts.getD []) with
       | .error _ => st.context
       | .ok s => mergeObj st.context (s.context.getD [])) := by
  constructor
  · rw [buildCtx_append, h1]
    rfl
  · cases hq : q.setup (opts.getD []) with
    | error e => simp only [use, hq]
    | ok s =>
      cases hs : s.context with
      | some frag => simp only [use, hq, hs]; rfl
      | none => simp only [use, hq, hs]; rfl

/-- Witness for C5's amended theorem at a concrete registry and builder
state. -/
theorem c5_witness :
    (buildCtx [] [provA] = .ok [("a", 1)]) ∧
    (buildCtx [] ([provA] ++ provProbe :: []) =
      (match provProbe [("a", 1)] with
       | .error e => .error e
       | .ok frag => buildCtx (mergeObj [("a", 1)] frag) []) ∧
    (use mkBuilder pluginProbe none).1.context =
      (match pluginProbe.setup ((none : Option (Obj Nat)).getD []) with
       | .error _ => (mkBuilder : BuilderSt Nat).context
       | .ok s => mergeObj (mkBuilder : BuilderSt Nat).context
           (s.context.getD []))) :=
  ⟨rfl,
   c5_order_and_provider_inputs [] [provA] provProbe [] [("a", 1)] rfl
     mkBuilder pluginProbe none⟩

/-- C6 counterexample: the context object returned by a completed
`ContextBuilder.build` is an unfrozen copy, and a subsequent key
assignment on it does change it — it is not read-only. -/
theorem c6_counterexample :
    objSet (build (use mkBuilder pluginA none).1) "x" 7 ≠
      build (use mkBuilder pluginA none).1 := by
  decide

/-- C6 amended: the context returned by `getContext` is frozen, and
attempted key assignments and deletions leave it unchanged; but
`ContextBuilder.build` returns an unfrozen shallow copy of the
accumulated context, on which a key assignment takes effect. -/
theorem c6_frozen_getcontext_mutable_build
    (registry : List (Provider α)) (o : JSObj α)
    (hreg : getContext registry = .ok o)
    (st : BuilderSt α) (k : String) (v : α) :
    o.frozen = true ∧
    (∀ k' v', objSet o k' v' = o) ∧
    (∀ k', objDelete o k' = o) ∧
    build st = ⟨st.context, false⟩ ∧
    objSet (build st) k v = ⟨setKey st.context k v, false⟩ := by
  have hfroz : o.frozen = true := by
    unfold getContext at hreg
    cases hb : buildCtx ([] : Obj α) registry with
    | error e => rw [hb] at hreg; simp [Except.map] at hreg
    | ok c =>
      rw [hb] at hreg
      have ho : freeze c = o := by simpa [Except.map] using hreg
      rw [← ho]; rfl
  refine ⟨hfroz, ?_, ?_, rfl, ?_⟩
  · intro k' v'; simp [objSet, hfroz]
  · intro k'; simp [objDelete, hfroz]
  · simp [objSet, build]

/-- Witness for C6's amended theorem at the concrete registry
`regSample` and a fresh builder. -/
theorem c6_witness :
    (getContext regSample = .ok ctxSample) ∧
    (ctxSample.frozen = true ∧
      (∀ k' v', objSet ctxSample k' v' = ctxSample) ∧
      (∀ k', objDelete ctxSample k' = ctxSample) ∧
      build (mkBuilder : BuilderSt Nat) =
        ⟨(mkBuilder : BuilderSt Nat).context, false⟩ ∧
      objSet (build (mkBuilder : BuilderSt Nat)) "x" 1 =
        ⟨setKey (mkBuilder : BuilderSt Nat).context "x" 1, false⟩) :=
  ⟨rfl,
   c6_frozen_getcontext_mutable_build regSample ctxSample rfl
     mkBuilder "x" 1⟩

theorem runDefines_getLast (cs : List κ) :
    ∀ st : Option κ, runDefines st cs =
      match cs.getLast? with
      | none => st
      | some c => some c := by
  induction cs with
  | nil => intro st; rfl
  | cons c cs ih =>
    intro st
    simp only [runDefines, defineConfig]
    rw [ih (some c)]
    cases cs with
    | nil => rfl
    | cons c2 cs2 =>
      rw [List.getLast?_cons_cons]
      cases hgl : (c2 :: cs2).getLast? with
      | none =>
        rw [List.getLast?_eq_getLast_of_ne_nil (List.cons_ne_nil c2 cs2)]
          at hgl
        cases hgl
      | some x => rfl

theorem runDefines_ne_nil (cs : List κ) (h : cs ≠ []) :
    ∀ st : Option κ, runDefines st cs = some (cs.getLast h) := by
  intro st
  rw [runDefines_getLast, List.getLast?_eq_getLast_of_ne_nil h]

/-- C2 (code-bug evaluation): `generateDatabase` assigns each
collection object itself under its slug, so the accessor for slug
`"posts"` is the collection descriptor, whose runtime properties are
`name`/`slug`/`fields` — none of the CRUD method names that the
declared return type (`DatabaseFromCollections` via
`CollectionMethods`) promises for it. -/
theorem c2_accessor_is_collection_not_methods :
    getKey (generateDatabase [⟨"Post", "posts", []⟩]) "posts" =
      some ⟨"Post", "posts", []⟩ ∧
    collectionPropNames = ["name", "slug", "fields"] ∧
    collectionMethodNames = ["create", "update", "delete", "find"] ∧
    ∀ m ∈ collectionMethodNames, m ∉ collectionPropNames :=
  ⟨rfl, rfl, rfl, by decide⟩

/-- C7: for a query or mutation with an args schema, an input failing
the schema check makes the returned (async) function raise the
validation error during the call — it propagates to the caller as the
rejection of the returned promise — and the handler is never invoked:
the outcome is the same for every handler. -/
theorem c7_validation_error_propagates_handler_skipped
    {T : Type} (cfg : FnConfig T) (schema : ZodSchema)
    (args : Option ArgVal) (e : String)
    (hs : cfg.args = some schema)
    (hp : schema.parse (args.getD []) = .error e) :
    runQuery cfg args = .error e ∧
    runMutation cfg args = .error e ∧
    (∀ h2 : Ctx → ArgVal → T,
      runQuery ⟨cfg.args, h2⟩ args = .error e ∧
      runMutation ⟨cfg.args, h2⟩ args = .error e) := by
  refine ⟨?_, ?_, fun h2 => ⟨?_, ?_⟩⟩ <;>
    simp [runQuery, runMutation, hs, hp]

/-- Witness for C7: the schema requiring key `"n"` rejects the input
`\x7b\x7d` and the error reaches the caller of the returned function. -/
theorem c7_witness :
    ((⟨some schemaReq, fun _ _ => (0 : Nat)⟩ : FnConfig Nat).args =
        some schemaReq ∧
      schemaReq.parse ((some ([] : ArgVal)).getD []) = .error "required") ∧
    (runQuery (⟨some schemaReq, fun _ _ => (0 : Nat)⟩ : FnConfig Nat)
        (some []) = .error "required" ∧
      runMutation (⟨some schemaReq, fun _ _ => (0 : Nat)⟩ : FnConfig Nat)
        (some []) = .error "required" ∧
      (∀ h2 : Ctx → ArgVal → Nat,
        runQuery (⟨some schemaReq, h2⟩ : FnConfig Nat) (some []) =
          .error "required" ∧
        runMutation (⟨some schemaReq, h2⟩ : FnConfig Nat) (some []) =
          .error "required")) :=
  ⟨⟨rfl, rfl⟩,
   c7_validation_error_propagates_handler_skipped
     ⟨some schemaReq, fun _ _ => (0 : Nat)⟩ schemaReq (some []) "required"
     rfl rfl⟩

/-- C8 counterexample: with the default-filling schema
(`parse \x7b\x7d = \x7bn: 5\x7d`) and an echo handler, the function returned by
`query` resolves to `\x7b\x7d`: the handler received the raw input, not the
parse output `\x7bn: 5\x7d`. -/
theorem c8_counterexample :
    schemaDefault.parse [] = .ok [("n", 5)] ∧
    runQuery (⟨some schemaDefault, fun _ v => v⟩ : FnConfig ArgVal)
      (some []) = .ok [] ∧
    ([] : ArgVal) ≠ [("n", 5)] :=
  ⟨rfl, rfl, by decide⟩

/-- C8 amended: when the handler runs, it receives the context and the
raw input `args ?? \x7b\x7d` — which passed schema validation — not the
value `parse` returned; the two coincide only for schemas whose parse
returns its input unchanged. -/
theorem c8_handler_gets_raw_validated_input
    {T : Type} (cfg : FnConfig T) (schema : ZodSchema)
    (args : Option ArgVal) (w : ArgVal)
    (hs : cfg.args = some schema)
    (hp : schema.parse (args.getD []) = .ok w) :
    runQuery cfg args =
      .ok (cfg.handler ⟨some (generateDatabase [])⟩ (args.getD [])) ∧
    runMutation cfg args = .ok (cfg.handler ⟨none⟩ (args.getD [])) := by
  constructor <;> simp [runQuery, runMutation, hs, hp]

/-- Witness for C8's amended theorem: on the valid input `\x7bn: 2\x7d` the
echo handler is called with exactly that raw input. -/
theorem c8_witness :
    ((⟨some schemaDefault, fun _ v => v⟩ : FnConfig ArgVal).args =
        some schemaDefault ∧
      schemaDefault.parse ((some [("n", 2)] : Option ArgVal).getD []) =
        .ok [("n", 2)]) ∧
    (runQuery (⟨some schemaDefault, fun _ v => v⟩ : FnConfig ArgVal)
        (some [("n", 2)]) =
        .ok ((fun (_ : Ctx) (v : ArgVal) => v) ⟨some (generateDatabase [])⟩
          ((some [("n", 2)] : Option ArgVal).getD [])) ∧
      runMutation (⟨some schemaDefault, fun _ v => v⟩ : FnConfig ArgVal)
        (some [("n", 2)]) =
        .ok ((fun (_ : Ctx) (v : ArgVal) => v) ⟨none⟩
          ((some [("n", 2)] : Option ArgVal).getD []))) :=
  ⟨⟨rfl, rfl⟩,
   c8_handler_gets_raw_validated_input
     ⟨some schemaDefault, fun _ v => v⟩ schemaDefault
     (some [("n", 2)]) [("n", 2)] rfl rfl⟩

/-- C9: on every invocation that validates, the function returned by
`query` runs the handler with a context whose `db` is generated from
the empty collection list — so it has no collection accessor for any
slug — and the function returned by `mutation` runs the handler with a
context whose `db` is undefined. -/
theorem c9_query_db_empty_mutation_db_undefined
    {T : Type} (cfg : FnConfig T) (args : Option ArgVal)
    (h : validates cfg args) :
    runQuery cfg args =
      .ok (cfg.handler ⟨some (generateDatabase [])⟩ (args.getD [])) ∧
    runMutation cfg args = .ok (cfg.handler ⟨none⟩ (args.getD [])) ∧
    generateDatabase [] = ([] : Obj Collection) ∧
    (∀ slug, getKey (generateDatabase []) slug = none) := by
  refine ⟨?_, ?_, rfl, fun slug => rfl⟩ <;>
  · unfold validates at h
    cases hs : cfg.args with
    | none => simp [runQuery, runMutation, hs]
    | some schema =>
      have h' : (schema.parse (args.getD [])).isOk = true := by
        rw [hs] at h; exact h
      cases hp : schema.parse (args.getD []) with
      | error e =>
        rw [hp] at h'
        simp [Except.isOk, Except.toBool] at h'
      | ok w => simp [runQuery, runMutation, hs, hp]

/-- Witness for C9 at a concrete validating invocation. -/
theorem c9_witness :
    validates (⟨some schemaDefault, fun _ v => v⟩ : FnConfig ArgVal)
      (some [("n", 2)]) ∧
    (runQuery (⟨some schemaDefault, fun _ v => v⟩ : FnConfig ArgVal)
        (some [("n", 2)]) =
        .ok ((fun (_ : Ctx) (v : ArgVal) => v) ⟨some (generateDatabase [])⟩
          ((some [("n", 2)] : Option ArgVal).getD [])) ∧
      runMutation (⟨some schemaDefault, fun _ v => v⟩ : FnConfig ArgVal)
        (some [("n", 2)]) =
        .ok ((fun (_ : Ctx) (v : ArgVal) => v) ⟨none⟩
          ((some [("n", 2)] : Option ArgVal).getD [])) ∧
      generateDatabase [] = ([] : Obj Collection) ∧
      (∀ slug, getKey (generateDatabase []) slug = none)) :=
  ⟨by decide,
   c9_query_db_empty_mutation_db_undefined
     ⟨some schemaDefault, fun _ v => v⟩ (some [("n", 2)]) (by decide)⟩

/-- C10: `getConfig` throws exactly when `defineConfig` has never been
called; after a sequence of `defineConfig` calls it returns the config
most recently passed, and `defineConfig` returns its argument unchanged
while storing it. -/
theorem c10_define_get_config
    (cs : List κ) (config : κ) (st : Option κ) :
    defineConfig config st = (config, some config) ∧
    (getConfig (runDefines (none : Option κ) cs) =
        .error "Config not defined. Call defineConfig() first." ↔ cs = []) ∧
    (∀ h : cs ≠ [],
      getConfig (runDefines (none : Option κ) cs) = .ok (cs.getLast h)) := by
  refine ⟨rfl, ⟨?_, ?_⟩, ?_⟩
  · intro he
    by_contra hne
    rw [runDefines_ne_nil cs hne none] at he
    cases he
  · intro he
    subst he
    rfl
  · intro h
    rw [runDefines_ne_nil cs h none]
    rfl

/-- Witness for C10: after `defineConfig(1)` then `defineConfig(2)`,
`getConfig` returns `2`; `defineConfig 7` returns `7` unchanged. -/
theorem c10_witness :
    defineConfig (7 : Nat) (none : Option Nat) = (7, some 7) ∧
    (getConfig (runDefines (none : Option Nat) [1, 2]) =
        .error "Config not defined. Call defineConfig() first." ↔
      ([1, 2] : List Nat) = []) ∧
    getConfig (runDefines (none : Option Nat) [1, 2]) = .ok 2 :=
  ⟨(c10_define_get_config [1, 2] 7 none).1,
   (c10_define_get_config [1, 2] 7 none).2.1,
   (c10_define_get_config [1, 2] 7 none).2.2 (by decide)⟩
